import Mathlib

/-!
Verification of the SvelteKit PWA integration's workbox configuration core
(source file `src/config.ts`): the precache-manifest transform returned by
`createManifestTransform` (URL prefix resolution, pretty-URL rewriting of
HTML paths, fallback handling, the synthetic SPA fallback entry and the
web-app-manifest filter) together with the glob-pattern policy builders
`buildGlobPatterns` / `buildGlobIgnores` and the fallback hashing helper
`buildManifestEntry`.

JavaScript strings are modelled as lists of characters.  The asynchronous
file read performed by `buildManifestEntry` is modelled by an explicit read
function returning `Except` (a rejected stream surfaces as `Except.error`),
and the MD5 digest by an abstract hash function on the file contents.
-/

/-- JavaScript strings, modelled as lists of characters. -/
abbrev Str := List Char

/-- Embeds a Lean string literal as a character list. -/
def str (s : String) : Str := s.toList

/-- Models JavaScript `s.startsWith(p)`. -/
def jsStartsWith (s p : Str) : Bool := decide (p <+: s)

/-- Models JavaScript `s.endsWith(p)`. -/
def jsEndsWith (s p : Str) : Bool := decide (p <:+ s)

/-- Models JavaScript `s.includes(p)`. -/
def jsIncludes (s p : Str) : Bool := decide (p <:+: s)

/-- Models JavaScript `s.lastIndexOf(c)`, with `none` playing the role of the
sentinel `-1`. -/
def lastIndexOf : Str → Char → Option Nat
  | [], _ => none
  | a :: as, c =>
    match lastIndexOf as c with
    | some i => some (i + 1)
    | none => if a = c then some 0 else none

/-- One entry of the precache manifest handed to / produced by the transform
(workbox `ManifestEntry` together with its `size`). -/
structure ManifestEntry where
  url : Str
  revision : Str
  size : Nat
deriving DecidableEq

/-- The `spa` field of `KitOptions`: either a boolean or an object carrying an
optional fallback-URL mapping and an optional asynchronous revision supplier.
The supplier `() => Promise<string>` is modelled by the string it resolves
to, so `fallbackRevision = some r` means a function was supplied and resolves
to `r`. -/
inductive SpaOptions where
  | asBool (b : Bool)
  | asObject (fallbackMapping : Option Str) (fallbackRevision : Option Str)
deriving DecidableEq

/-- The slice of `KitOptions` read by the manifest transform:
`trailingSlash`, `adapterFallback` and `spa`. -/
structure KitOptions where
  trailingSlash : Option Str := none
  adapterFallback : Option Str := none
  spa : Option SpaOptions := none
deriving DecidableEq

/-- JavaScript truthiness of an optional string: absent and the empty string
are falsy. -/
def optStrTruthy : Option Str → Bool
  | some s => !s.isEmpty
  | none => false

/-- JavaScript truthiness of the optional `spa` field: absent and `false` are
falsy, `true` and every object are truthy. -/
def spaTruthy : Option SpaOptions → Bool
  | none => false
  | some (SpaOptions.asBool b) => b
  | some (SpaOptions.asObject _ _) => true

/-- The build-internal path of the fallback document,
`'prerendered/fallback.html'` in the source. -/
def defaultAdapterFallback : Str := str "prerendered/fallback.html"

/-- The prefix-resolution step of the transform (config.ts lines 124-131):
strip `'client/'` (7 characters), else `'prerendered/dependencies/'`
(25 characters), else `'prerendered/pages/'` (18 characters), else rewrite
the default fallback document path to the resolved `adapterFallback`. -/
def resolveUrl (adapterFallback url : Str) : Str :=
  if jsStartsWith url (str "client/") then url.drop 7
  else if jsStartsWith url (str "prerendered/dependencies/") then url.drop 25
  else if jsStartsWith url (str "prerendered/pages/") then url.drop 18
  else if url = defaultAdapterFallback then adapterFallback
  else url

/-- Models `if (url.startsWith('/')) url = url.slice(1)` (config.ts
lines 134-135). -/
def stripLeadingSlash (url : Str) : Str :=
  if jsStartsWith url (str "/") then url.drop 1 else url

/-- Models `url.substring(0, url.lastIndexOf('.'))` (config.ts lines 148 and
152); when `'.'` does not occur, `substring(0, -1)` is the empty string. -/
def htmlTrim (url : Str) : Str :=
  match lastIndexOf url '.' with
  | some j => url.take j
  | none => []

/-- The pretty-URL rewriting step applied after prefix resolution (config.ts
lines 133-155): strip a leading slash, map the root `index.html` to `base`,
map `abc/index.html` to `abc` plus the trailing-slash suffix, and map any
other `*.html` to the same path with the extension removed plus the suffix. -/
def prettyUrl (base suffix url : Str) : Str :=
  if jsEndsWith url (str ".html") then
    let url1 := stripLeadingSlash url
    if url1 = str "index.html" then base
    else
      match lastIndexOf url1 '/' with
      | some idx =>
        if jsEndsWith url1 (str "/index.html") then url1.take idx ++ suffix
        else htmlTrim url1 ++ suffix
      | none => htmlTrim url1 ++ suffix
  else url

/-- The callback of the `.map` in the transform (config.ts lines 117-160): it
computes the rewritten url for the entry and assigns it back to the entry
(`e.url = url`) before returning that same entry, so the returned record is
simultaneously the manifest element and the post-call state of the caller's
entry object. -/
def transformEntry (base suffix adapterFallback : Str) (e : ManifestEntry) : ManifestEntry :=
  { e with url := prettyUrl base suffix (resolveUrl adapterFallback e.url) }

/-- Post-call state of one input entry: entries removed by the fallback
filter never reach the `.map` callback and stay untouched, all others are
mutated in place by `e.url = url` to the rewritten entry. -/
def entryAfterTransform (base suffix adapterFallback : Str) (excludeFallback : Bool)
    (e : ManifestEntry) : ManifestEntry :=
  if excludeFallback && decide (e.url = defaultAdapterFallback) then e
  else transformEntry base suffix adapterFallback e

/-- The filter-then-map stage of the transform (config.ts lines 115-160). -/
def mapManifest (base suffix adapterFallback : Str) (excludeFallback : Bool)
    (entries : List ManifestEntry) : List ManifestEntry :=
  (entries.filter fun e => !(excludeFallback && decide (e.url = defaultAdapterFallback))).map
    (transformEntry base suffix adapterFallback)

/-- The trailing-slash suffix: `options?.trailingSlash === 'always' ? '/' : ''`
(config.ts line 104). -/
def suffixOf (options : Option KitOptions) : Str :=
  if options.bind KitOptions.trailingSlash = some (str "always") then str "/" else str ""

/-- The resolved fallback path (config.ts lines 105-112): a falsy
`adapterFallback` (absent or empty) is replaced by the default document. -/
def resolvedAdapterFallback (fb : Option Str) : Str :=
  match fb with
  | some f => if f.isEmpty then defaultAdapterFallback else f
  | none => defaultAdapterFallback

/-- The fallback serving URL of the synthetic SPA entry (config.ts
lines 163-165): a truthy object-level `fallbackMapping` wins over
`adapterFallback`. -/
def spaName (spa : Option SpaOptions) (adapterFallback : Str) : Str :=
  match spa with
  | some (SpaOptions.asObject (some m) _) => if m.isEmpty then adapterFallback else m
  | _ => adapterFallback

/-- Presence of the custom revision supplier,
`typeof options.spa === 'object' && typeof options.spa.fallbackRevision === 'function'`
(config.ts line 166), together with the value it resolves to. -/
def spaRevisionFn : Option SpaOptions → Option Str
  | some (SpaOptions.asObject _ r) => r
  | _ => none

/-- Models `resolve(outDir, 'client/_app/version.json')` for the relative
segment used by the source. -/
def resolvePath (dir file : Str) : Str := dir ++ str "/" ++ file

/-- The fallback hashing helper (config.ts lines 216-240): read the file at
`path`, hash its contents, and produce a size-0 entry; a stream error is
propagated unchanged as a rejection. -/
def buildManifestEntry {α ε : Type} (md5 : α → Str) (fs : Str → Except ε α)
    (url path : Str) : Except ε ManifestEntry :=
  match fs path with
  | Except.error err => Except.error err
  | Except.ok content => Except.ok ⟨url, md5 content, 0⟩

/-- The web-app-manifest filter (config.ts lines 181-184): with a truthy
`webManifestName`, drop every entry whose url equals it; otherwise the
manifest is returned unfiltered. -/
def applyWmFilter (webManifestName : Option Str) (manifest : List ManifestEntry) :
    List ManifestEntry :=
  match webManifestName with
  | some n => if n.isEmpty then manifest else manifest.filter fun e => !decide (e.url = n)
  | none => manifest

/-- The tail of the transform (config.ts lines 162-184): optionally append
the synthetic SPA fallback entry, then apply the web-app-manifest filter.
`fbTruthy` is the truthiness of `options?.adapterFallback` and
`adapterFallback` the resolved fallback path (equal to the configured one
whenever `fbTruthy` holds, which guards this stage). -/
def spaAndFilterStage {α ε : Type} (md5 : α → Str) (fs : Str → Except ε α) (outDir : Str)
    (webManifestName : Option Str) (spa : Option SpaOptions) (fbTruthy : Bool)
    (adapterFallback : Str) (manifest : List ManifestEntry) :
    Except ε (List ManifestEntry) :=
  let afterSpa : Except ε (List ManifestEntry) :=
    if spaTruthy spa && fbTruthy then
      let name := spaName spa adapterFallback
      match spaRevisionFn spa with
      | some rev => Except.ok (manifest ++ [⟨name, rev, 0⟩])
      | none =>
        match buildManifestEntry md5 fs name
            (resolvePath outDir (str "client/_app/version.json")) with
        | Except.error err => Except.error err
        | Except.ok entry => Except.ok (manifest ++ [entry])
    else Except.ok manifest
  match afterSpa with
  | Except.error err => Except.error err
  | Except.ok m => Except.ok (applyWmFilter webManifestName m)

/-- The manifest transform produced by `createManifestTransform` (config.ts
lines 96-186), as a function of the captured configuration and the entry
list. -/
def createManifestTransform {α ε : Type} (md5 : α → Str) (fs : Str → Except ε α)
    (base outDir : Str) (webManifestName : Option Str) (options : Option KitOptions)
    (entries : List ManifestEntry) : Except ε (List ManifestEntry) :=
  let fb := options.bind KitOptions.adapterFallback
  spaAndFilterStage md5 fs outDir webManifestName (options.bind KitOptions.spa)
    (optStrTruthy fb) (resolvedAdapterFallback fb)
    (mapManifest base (suffixOf options) (resolvedAdapterFallback fb) (!optStrTruthy fb) entries)

/-- Models `if (!gp.some(hasIt)) gp.push(pat)`: append the baseline pattern
when no existing entry witnesses the detection predicate. -/
def appendIfAbsent (hasIt : Str → Bool) (pat : Str) (gp : List Str) : List Str :=
  if gp.any hasIt then gp else gp ++ [pat]

/-- The client-stage baseline inclusion pattern. -/
def clientBaselinePattern : Str := str "client/**/*.\x7bjs,css,ico,png,svg,webp,webmanifest\x7d"

/-- The statically-generated-page baseline inclusion pattern. -/
def prerenderedBaselinePattern : Str := str "prerendered/**/*.\x7bhtml,json,js\x7d"

/-- The glob-pattern policy builder (config.ts lines 188-203).  The three
checks run sequentially against the already-extended list, mirroring the
in-place pushes of the source. -/
def buildGlobPatterns : Option (List Str) → List Str
  | some gp =>
    appendIfAbsent (fun g => jsIncludes g (str "webmanifest")) (str "client/*.webmanifest")
      (appendIfAbsent (fun g => jsStartsWith g (str "client/")) clientBaselinePattern
        (appendIfAbsent (fun g => jsStartsWith g (str "prerendered/")) prerenderedBaselinePattern gp))
  | none => [clientBaselinePattern, prerenderedBaselinePattern]

/-- The glob-ignore policy builder (config.ts lines 205-214). -/
def buildGlobIgnores : Option (List Str) → List Str
  | some gi => appendIfAbsent (fun g => jsStartsWith g (str "server/")) (str "server/**") gi
  | none => [str "server/**"]

/-- One URL-resolution rule of the specification: strip a stage marker of
`n` characters, or rewrite a path that equals a target. -/
inductive UrlRule where
  | strip (p : Str) (n : Nat)
  | rewriteTo (target : Str)

/-- First-match-wins application of an ordered rule list; `adapterFallback`
is the rewrite destination of the equality rule. -/
def applyRules (adapterFallback : Str) : List UrlRule → Str → Str
  | [], url => url
  | UrlRule.strip p n :: rs, url =>
    if jsStartsWith url p then url.drop n else applyRules adapterFallback rs url
  | UrlRule.rewriteTo t :: rs, url =>
    if url = t then adapterFallback else applyRules adapterFallback rs url

/-- The specification's fixed precedence order of resolution rules. -/
def fallbackResolutionRules : List UrlRule :=
  [UrlRule.strip (str "client/") 7,
   UrlRule.strip (str "prerendered/dependencies/") 25,
   UrlRule.strip (str "prerendered/pages/") 18,
   UrlRule.rewriteTo defaultAdapterFallback]

/-- Concrete hash function used to instantiate theorems on closed inputs. -/
def md5unit : Unit → Str := fun _ => str "d41d8"

/-- Concrete always-successful file read used on closed inputs. -/
def fsOk : Str → Except Nat Unit := fun _ => Except.ok ()

/-- Concrete always-failing file read used on closed inputs; the rejection
value is the number 7. -/
def fsErr : Str → Except Nat Unit := fun _ => Except.error 7

theorem jsEndsWith_iff {s p : Str} : jsEndsWith s p = true ↔ p <:+ s := by
  simp [jsEndsWith]

theorem jsEndsWith_append_self (X s : Str) : jsEndsWith (X ++ s) s = true := by
  simp only [jsEndsWith, decide_eq_true_eq]
  exact ⟨X, rfl⟩

theorem lastIndexOf_append (xs ys : Str) (c : Char) :
    lastIndexOf (xs ++ ys) c =
      match lastIndexOf ys c with
      | some i => some (xs.length + i)
      | none => lastIndexOf xs c := by
  induction xs with
  | nil => cases h : lastIndexOf ys c <;> simp [lastIndexOf, h]
  | cons a as ih =>
    rw [List.cons_append, lastIndexOf, ih]
    cases h : lastIndexOf ys c with
    | some i =>
      simp only [List.length_cons, Option.some.injEq]
      omega
    | none => rfl

theorem lastIndexOf_eq_none {xs : Str} {c : Char} : lastIndexOf xs c = none ↔ c ∉ xs := by
  induction xs with
  | nil => simp [lastIndexOf]
  | cons a as ih =>
    simp only [lastIndexOf]
    cases h : lastIndexOf as c with
    | some i =>
      have : c ∈ as := by
        by_contra hc
        rw [ih.mpr hc] at h
        cases h
      simp [this]
    | none =>
      have hnotin : c ∉ as := ih.mp h
      by_cases hac : a = c
      · simp [hac]
      · have hca : ¬c = a := fun hca => hac hca.symm
        simp [hac, hnotin, hca]

theorem lastIndexOf_marker (t rest : Str) (c : Char) (h : c ∉ rest) :
    lastIndexOf (t ++ c :: rest) c = some t.length := by
  rw [lastIndexOf_append]
  have h0 : lastIndexOf (c :: rest) c = some 0 := by
    simp [lastIndexOf, lastIndexOf_eq_none.mpr h]
  simp [h0]

theorem suffix_of_cons {p : Str} {b : Char} {l : Str} (h : p <:+ b :: l) :
    p = b :: l ∨ p <:+ l := by
  obtain ⟨t, ht⟩ := h
  cases t with
  | nil => left; simpa using ht
  | cons a ts =>
    right
    refine ⟨ts, ?_⟩
    injection ht

/-- C1: the prefix-resolution step of the transform resolves every url by the
first matching rule of the fixed precedence list: strip `'client/'`
(7 characters), else strip `'prerendered/dependencies/'` (25 characters),
else strip `'prerendered/pages/'` (18 characters), else rewrite the default
fallback document path to the configured fallback; once a rule matches no
later rule is applied. -/
theorem claim1_resolve_rule_order (adapterFallback url : Str) :
    resolveUrl adapterFallback url = applyRules adapterFallback fallbackResolutionRules url := by
  simp only [resolveUrl, fallbackResolutionRules, applyRules]

/-- C4 (amended): the map produces an entry whose revision and size equal the
input's and whose url is rewritten; however, the source assigns the rewritten
url back onto the caller's entry object and returns that same object, so the
post-call state of every non-excluded input entry is the rewritten entry, not
its original value. -/
theorem claim4_fields_preserved_entry_mutated (base suffix adapterFallback : Str)
    (e : ManifestEntry) :
    (transformEntry base suffix adapterFallback e).revision = e.revision
    ∧ (transformEntry base suffix adapterFallback e).size = e.size
    ∧ entryAfterTransform base suffix adapterFallback false e
        = transformEntry base suffix adapterFallback e := by
  refine ⟨rfl, rfl, ?_⟩
  simp [entryAfterTransform]

/-- C4 counterexample: the input entry is not left unchanged — after the
transform runs on a client asset, the caller's entry object holds the
rewritten url. -/
theorem claim4_counterexample :
    ¬ (entryAfterTransform (str "/") (str "") defaultAdapterFallback true
        ⟨str "client/_app/x.js", str "r1", 5⟩ = ⟨str "client/_app/x.js", str "r1", 5⟩) := by
  decide

/-- C5 (amended): an entry matching none of the four prefix/equality rules
passes through prefix resolution with its url unchanged, and when that url
moreover does not end in `.html` the entry is mapped completely unmodified;
urls ending in `.html` still undergo pretty-URL rewriting. -/
theorem claim5_unmatched_passthrough (base suffix fb : Str) (e : ManifestEntry)
    (h1 : jsStartsWith e.url (str "client/") = false)
    (h2 : jsStartsWith e.url (str "prerendered/dependencies/") = false)
    (h3 : jsStartsWith e.url (str "prerendered/pages/") = false)
    (h4 : e.url ≠ defaultAdapterFallback) :
    resolveUrl fb e.url = e.url
    ∧ (jsEndsWith e.url (str ".html") = false → transformEntry base suffix fb e = e) := by
  have hres : resolveUrl fb e.url = e.url := by
    simp [resolveUrl, h1, h2, h3, h4]
  refine ⟨hres, fun h5 => ?_⟩
  cases e with
  | mk u r s =>
    simp only [ManifestEntry.url] at hres h5
    simp [transformEntry, prettyUrl, hres, h5]

/-- C5 witness: a static asset path matching no rule is mapped unchanged. -/
theorem claim5_witness :
    (jsStartsWith (str "static/logo.png") (str "client/") = false
     ∧ jsStartsWith (str "static/logo.png") (str "prerendered/dependencies/") = false
     ∧ jsStartsWith (str "static/logo.png") (str "prerendered/pages/") = false
     ∧ str "static/logo.png" ≠ defaultAdapterFallback
     ∧ jsEndsWith (str "static/logo.png") (str ".html") = false)
    ∧ resolveUrl (str "/404") (str "static/logo.png") = str "static/logo.png"
    ∧ transformEntry (str "/") (str "") (str "/404") ⟨str "static/logo.png", str "r", 3⟩
        = ⟨str "static/logo.png", str "r", 3⟩ :=
  ⟨by decide,
   (claim5_unmatched_passthrough (str "/") (str "") (str "/404")
      ⟨str "static/logo.png", str "r", 3⟩ (by decide) (by decide) (by decide) (by decide)).1,
   (claim5_unmatched_passthrough (str "/") (str "") (str "/404")
      ⟨str "static/logo.png", str "r", 3⟩ (by decide) (by decide) (by decide) (by decide)).2
     (by decide)⟩

/-- C5 counterexample: an unmatched path ending in `.html` is not passed
through unmodified — the pretty-URL rewriting still strips the extension. -/
theorem claim5_counterexample :
    (jsStartsWith (str "foo/bar.html") (str "client/") = false
     ∧ jsStartsWith (str "foo/bar.html") (str "prerendered/dependencies/") = false
     ∧ jsStartsWith (str "foo/bar.html") (str "prerendered/pages/") = false
     ∧ str "foo/bar.html" ≠ defaultAdapterFallback)
    ∧ createManifestTransform md5unit fsOk (str "/") (str "out") none none
        [⟨str "foo/bar.html", str "r", 1⟩]
        = Except.ok [⟨str "foo/bar", str "r", 1⟩]
    ∧ str "foo/bar" ≠ str "foo/bar.html" :=
  ⟨by decide, by rfl, by decide⟩

/-- C6 counterexample: `buildGlobPatterns` applied to
`['prerendered/x']` does not append the web-manifest baseline pattern
`'client/*.webmanifest'`, because the client-stage baseline appended just
before already contains the substring `webmanifest`. -/
theorem claim6_counterexample :
    str "client/*.webmanifest" ∉ buildGlobPatterns (some [str "prerendered/x"]) := by
  decide

/-- C6 (amended): `buildGlobPatterns ['prerendered/x']` keeps the single
caller entry, appends no prerendered baseline, appends the client-stage
baseline, and appends nothing else — in particular the web-manifest pattern
is not appended since the client-stage baseline already contains the
substring `webmanifest`. -/
theorem claim6_amended :
    buildGlobPatterns (some [str "prerendered/x"]) = [str "prerendered/x", clientBaselinePattern]
    ∧ (buildGlobPatterns (some [str "prerendered/x"])).count (str "prerendered/x") = 1
    ∧ prerenderedBaselinePattern ∉ buildGlobPatterns (some [str "prerendered/x"]) := by
  decide

theorem appendIfAbsent_eq (hasIt : Str → Bool) (pat : Str) (gp : List Str) :
    ∃ t, appendIfAbsent hasIt pat gp = gp ++ t := by
  by_cases h : gp.any hasIt = true
  · exact ⟨[], by simp [appendIfAbsent, h]⟩
  · exact ⟨[pat], by simp [appendIfAbsent, h]⟩

theorem appendIfAbsent_any_mono (hasIt q : Str → Bool) (pat : Str) (gp : List Str)
    (h : gp.any q = true) : (appendIfAbsent hasIt pat gp).any q = true := by
  by_cases hc : gp.any hasIt = true
  · simpa [appendIfAbsent, hc] using h
  · simp [appendIfAbsent, hc, List.any_append, h]

theorem appendIfAbsent_ensures (hasIt : Str → Bool) (pat : Str) (gp : List Str)
    (hp : hasIt pat = true) : (appendIfAbsent hasIt pat gp).any hasIt = true := by
  by_cases hc : gp.any hasIt = true
  · simp [appendIfAbsent, hc]
  · simp [appendIfAbsent, hc, List.any_append, hp]

/-- C7 (amended): the glob builders only ever append — every caller-supplied
entry is preserved in its original position — and the result always covers
each baseline by its defining detection check: some inclusion pattern starts
with `'client/'`, some starts with `'prerendered/'`, and some exclusion
pattern starts with `'server/'`; with no caller input the results are exactly
the fixed baselines.  The literal baseline strings themselves are appended
only when the corresponding check fails on the caller's entries. -/
theorem claim7_append_only_and_coverage (ps ig : List Str) :
    ps <+: buildGlobPatterns (some ps)
    ∧ ig <+: buildGlobIgnores (some ig)
    ∧ (buildGlobPatterns (some ps)).any (fun g => jsStartsWith g (str "client/")) = true
    ∧ (buildGlobPatterns (some ps)).any (fun g => jsStartsWith g (str "prerendered/")) = true
    ∧ (buildGlobIgnores (some ig)).any (fun g => jsStartsWith g (str "server/")) = true
    ∧ buildGlobPatterns none = [clientBaselinePattern, prerenderedBaselinePattern]
    ∧ buildGlobIgnores none = [str "server/**"] := by
  obtain ⟨t1, e1⟩ := appendIfAbsent_eq
    (fun g => jsStartsWith g (str "prerendered/")) prerenderedBaselinePattern ps
  obtain ⟨t2, e2⟩ := appendIfAbsent_eq (fun g => jsStartsWith g (str "client/"))
    clientBaselinePattern
    (appendIfAbsent (fun g => jsStartsWith g (str "prerendered/")) prerenderedBaselinePattern ps)
  obtain ⟨t3, e3⟩ := appendIfAbsent_eq (fun g => jsIncludes g (str "webmanifest"))
    (str "client/*.webmanifest")
    (appendIfAbsent (fun g => jsStartsWith g (str "client/")) clientBaselinePattern
      (appendIfAbsent (fun g => jsStartsWith g (str "prerendered/")) prerenderedBaselinePattern ps))
  obtain ⟨t4, e4⟩ := appendIfAbsent_eq (fun g => jsStartsWith g (str "server/"))
    (str "server/**") ig
  refine ⟨?_, ?_, ?_, ?_, ?_, rfl, rfl⟩
  · have hdef : buildGlobPatterns (some ps)
        = appendIfAbsent (fun g => jsIncludes g (str "webmanifest")) (str "client/*.webmanifest")
            (appendIfAbsent (fun g => jsStartsWith g (str "client/")) clientBaselinePattern
              (appendIfAbsent (fun g => jsStartsWith g (str "prerendered/"))
                prerenderedBaselinePattern ps)) := rfl
    rw [hdef, e3, e2, e1]
    exact ⟨t1 ++ t2 ++ t3, by simp [List.append_assoc]⟩
  · exact ⟨t4, by simp only [buildGlobIgnores, e4]⟩
  · show (appendIfAbsent _ _ _).any _ = true
    apply appendIfAbsent_any_mono
    exact appendIfAbsent_ensures _ _ _ (by decide)
  · show (appendIfAbsent _ _ _).any _ = true
    apply appendIfAbsent_any_mono
    apply appendIfAbsent_any_mono
    exact appendIfAbsent_ensures _ _ _ (by decide)
  · exact appendIfAbsent_ensures _ _ _ (by decide)

/-- C7 counterexample: with caller-supplied ignore `['server/x']` the result
does not literally contain the baseline exclusion pattern `'server/**'` — the
baseline is only represented through the caller's own `server/`-entry. -/
theorem claim7_counterexample :
    buildGlobIgnores (some [str "server/x"]) = [str "server/x"]
    ∧ str "server/**" ∉ buildGlobIgnores (some [str "server/x"]) := by
  decide

theorem mapManifest_prefiltered (base suffix adapterFallback : Str)
    (entries : List ManifestEntry) :
    mapManifest base suffix adapterFallback true
        (entries.filter fun e => !decide (e.url = defaultAdapterFallback))
      = mapManifest base suffix adapterFallback true entries := by
  simp only [mapManifest, Bool.true_and, List.filter_filter, Bool.and_self]

/-- C2: when the caller supplies no truthy `adapterFallback` override, every
input entry whose url equals the default fallback document path
`'prerendered/fallback.html'` is dropped — removing those entries from the
input leaves the transform's output unchanged; when a truthy override `f` is
supplied, the fallback resolves to `f`, no entry is filtered out (the map
keeps every entry in position), and the prefix-resolution step rewrites the
default fallback document path to `f`. -/
theorem claim2_fallback_drop_or_rewrite {α ε : Type} (md5 : α → Str) (fs : Str → Except ε α)
    (base outDir : Str) (webManifestName : Option Str) (options : Option KitOptions)
    (entries : List ManifestEntry) :
    (optStrTruthy (options.bind KitOptions.adapterFallback) = false →
      createManifestTransform md5 fs base outDir webManifestName options entries
        = createManifestTransform md5 fs base outDir webManifestName options
            (entries.filter fun e => !decide (e.url = defaultAdapterFallback)))
    ∧ ∀ f, options.bind KitOptions.adapterFallback = some f → f.isEmpty = false →
        (resolvedAdapterFallback (options.bind KitOptions.adapterFallback) = f
         ∧ optStrTruthy (options.bind KitOptions.adapterFallback) = true
         ∧ mapManifest base (suffixOf options) f false entries
             = entries.map (transformEntry base (suffixOf options) f)
         ∧ resolveUrl f defaultAdapterFallback = f) := by
  constructor
  · intro hfb
    simp only [createManifestTransform, hfb, Bool.not_false]
    rw [mapManifest_prefiltered]
  · intro f hf hfe
    refine ⟨by rw [hf]; simp [resolvedAdapterFallback, hfe],
            by rw [hf]; simp [optStrTruthy, hfe], ?_, ?_⟩
    · simp [mapManifest]
    · have h1 : jsStartsWith defaultAdapterFallback (str "client/") = false := by decide
      have h2 : jsStartsWith defaultAdapterFallback (str "prerendered/dependencies/") = false := by
        decide
      have h3 : jsStartsWith defaultAdapterFallback (str "prerendered/pages/") = false := by decide
      simp [resolveUrl, h1, h2, h3]

/-- C2 witness: with no override the default fallback entry is dropped; with
override `/404` it is kept and rewritten. -/
theorem claim2_witness :
    (optStrTruthy ((none : Option KitOptions).bind KitOptions.adapterFallback) = false
     ∧ (some { adapterFallback := some (str "/404") } : Option KitOptions).bind
         KitOptions.adapterFallback = some (str "/404")
     ∧ (str "/404").isEmpty = false)
    ∧ createManifestTransform md5unit fsOk (str "/") (str "out") none none
        [⟨defaultAdapterFallback, str "r", 1⟩]
        = createManifestTransform md5unit fsOk (str "/") (str "out") none none
            ([⟨defaultAdapterFallback, str "r", 1⟩].filter
               fun e => !decide (e.url = defaultAdapterFallback))
    ∧ resolveUrl (str "/404") defaultAdapterFallback = str "/404" :=
  ⟨by refine ⟨by decide, rfl, by decide⟩,
   (claim2_fallback_drop_or_rewrite md5unit fsOk (str "/") (str "out") none none
      [⟨defaultAdapterFallback, str "r", 1⟩]).1 (by decide),
   ((claim2_fallback_drop_or_rewrite md5unit fsOk (str "/") (str "out") none
      (some { adapterFallback := some (str "/404") })
      [⟨defaultAdapterFallback, str "r", 1⟩]).2 (str "/404") rfl (by decide)).2.2.2⟩

theorem applyWmFilter_append (wm : Option Str) (A B : List ManifestEntry) :
    applyWmFilter wm (A ++ B) = applyWmFilter wm A ++ applyWmFilter wm B := by
  cases wm with
  | none => rfl
  | some n =>
    by_cases h : n.isEmpty = true
    · simp [applyWmFilter, h]
    · simp [applyWmFilter, h, List.filter_append]

theorem applyWmFilter_singleton_keep (wm : Option Str) (x : ManifestEntry)
    (h : ∀ n, wm = some n → x.url ≠ n) : applyWmFilter wm [x] = [x] := by
  cases wm with
  | none => rfl
  | some n =>
    by_cases he : n.isEmpty = true
    · simp [applyWmFilter, he]
    · simp [applyWmFilter, he, h n rfl]

theorem applyWmFilter_singleton_drop (n : Str) (x : ManifestEntry)
    (hn : n.isEmpty = false) (h : x.url = n) : applyWmFilter (some n) [x] = [] := by
  simp [applyWmFilter, hn, h]

theorem spaAndFilterStage_customRev {α ε : Type} (md5 : α → Str) (fs : Str → Except ε α)
    (outDir : Str) (wm : Option Str) (mapping : Option Str) (r : Str)
    (adapterFallback : Str) (manifest : List ManifestEntry) :
    spaAndFilterStage md5 fs outDir wm (some (SpaOptions.asObject mapping (some r))) true
        adapterFallback manifest
      = Except.ok (applyWmFilter wm (manifest
          ++ [⟨spaName (some (SpaOptions.asObject mapping (some r))) adapterFallback, r, 0⟩])) := by
  rfl

/-- C8: with SPA mode enabled as an object carrying a truthy custom
`fallbackMapping` and a custom revision supplier, and a truthy
`adapterFallback`, the transform's output is the rewritten manifest with
exactly one synthetic entry `{url := m, revision := r, size := 0}` appended
as its last element, where `m` is the mapped url and `r` the supplier's
value (assuming the mapped url does not collide with the configured
web-manifest file name, which is filtered afterwards). -/
theorem claim8_spa_custom_entry {α ε : Type} (md5 : α → Str) (fs : Str → Except ε α)
    (base outDir : Str) (webManifestName : Option Str) (options : Option KitOptions)
    (entries : List ManifestEntry) (m r f : Str)
    (hspa : options.bind KitOptions.spa = some (SpaOptions.asObject (some m) (some r)))
    (hm : m.isEmpty = false)
    (hfb : options.bind KitOptions.adapterFallback = some f)
    (hf : f.isEmpty = false)
    (hwm : ∀ n, webManifestName = some n → m ≠ n) :
    createManifestTransform md5 fs base outDir webManifestName options entries
      = Except.ok (applyWmFilter webManifestName
          (mapManifest base (suffixOf options) f false entries) ++ [⟨m, r, 0⟩]) := by
  have h1 : optStrTruthy (options.bind KitOptions.adapterFallback) = true := by
    rw [hfb]; simp [optStrTruthy, hf]
  have h2 : resolvedAdapterFallback (options.bind KitOptions.adapterFallback) = f := by
    rw [hfb]; simp [resolvedAdapterFallback, hf]
  have h3 : spaName (some (SpaOptions.asObject (some m) (some r))) f = m := by
    simp [spaName, hm]
  simp only [createManifestTransform, hspa, h1, h2, Bool.not_true]
  rw [spaAndFilterStage_customRev, h3, applyWmFilter_append,
    applyWmFilter_singleton_keep webManifestName ⟨m, r, 0⟩ (fun n hn => hwm n hn)]

/-- Concrete configuration: SPA object with mapping `/offline` and supplier
value `abc`, fallback override `/404`. -/
def kitSpaOffline : KitOptions :=
  { adapterFallback := some (str "/404"),
    spa := some (SpaOptions.asObject (some (str "/offline")) (some (str "abc"))) }

/-- Concrete configuration: SPA mode `true` with fallback override
`404.html`. -/
def kitSpaBool : KitOptions :=
  { adapterFallback := some (str "404.html"), spa := some (SpaOptions.asBool true) }

/-- Concrete configuration: SPA object whose mapping collides with the
web-manifest file name. -/
def kitSpaWm : KitOptions :=
  { adapterFallback := some (str "/404"),
    spa := some (SpaOptions.asObject (some (str "manifest.webmanifest")) (some (str "ab"))) }

/-- C8 witness: SPA object with mapping `/offline` and supplier value `abc`
appends the synthetic entry with url `/offline`, revision `abc` and size 0
as the last element. -/
theorem claim8_witness :
    ((some kitSpaOffline : Option KitOptions).bind KitOptions.spa
       = some (SpaOptions.asObject (some (str "/offline")) (some (str "abc")))
     ∧ (str "/offline").isEmpty = false
     ∧ (some kitSpaOffline : Option KitOptions).bind KitOptions.adapterFallback
         = some (str "/404")
     ∧ (str "/404").isEmpty = false)
    ∧ createManifestTransform md5unit fsOk (str "/") (str "out")
        (some (str "manifest.webmanifest")) (some kitSpaOffline)
        [⟨str "client/a.js", str "r", 1⟩]
        = Except.ok (applyWmFilter (some (str "manifest.webmanifest"))
            (mapManifest (str "/") (suffixOf (some kitSpaOffline)) (str "/404") false
              [⟨str "client/a.js", str "r", 1⟩])
            ++ [⟨str "/offline", str "abc", 0⟩]) :=
  ⟨⟨rfl, by decide, rfl, by decide⟩,
   claim8_spa_custom_entry md5unit fsOk (str "/") (str "out")
     (some (str "manifest.webmanifest")) (some kitSpaOffline)
     [⟨str "client/a.js", str "r", 1⟩] (str "/offline") (str "abc") (str "/404")
     rfl (by decide) rfl (by decide) (by intro n hn; cases hn; decide)⟩

/-- C9: when the synthetic fallback entry must be built by hashing (SPA mode
truthy, truthy fallback, no custom revision supplier) and the file read
fails, the whole transform fails with that same error propagated unchanged
and no manifest is produced. -/
theorem claim9_hash_error_propagates {α ε : Type} (md5 : α → Str) (fs : Str → Except ε α)
    (base outDir : Str) (webManifestName : Option Str) (options : Option KitOptions)
    (entries : List ManifestEntry) (err : ε)
    (hspa : spaTruthy (options.bind KitOptions.spa) = true)
    (hrev : spaRevisionFn (options.bind KitOptions.spa) = none)
    (hfbt : optStrTruthy (options.bind KitOptions.adapterFallback) = true)
    (herr : fs (resolvePath outDir (str "client/_app/version.json")) = Except.error err) :
    createManifestTransform md5 fs base outDir webManifestName options entries
      = Except.error err := by
  simp only [createManifestTransform, spaAndFilterStage, hspa, hfbt, hrev, Bool.and_self,
    if_true, buildManifestEntry, herr]

/-- C9 witness: SPA mode `true` with fallback `404.html` and a failing read
makes the transform fail with the read's rejection value 7. -/
theorem claim9_witness :
    (spaTruthy ((some kitSpaBool : Option KitOptions).bind KitOptions.spa) = true
     ∧ spaRevisionFn ((some kitSpaBool : Option KitOptions).bind KitOptions.spa) = none
     ∧ optStrTruthy ((some kitSpaBool : Option KitOptions).bind KitOptions.adapterFallback)
         = true
     ∧ fsErr (resolvePath (str "out") (str "client/_app/version.json")) = Except.error 7)
    ∧ createManifestTransform md5unit fsErr (str "/") (str "out") none (some kitSpaBool) []
        = Except.error 7 :=
  ⟨⟨rfl, rfl, by decide, rfl⟩,
   claim9_hash_error_propagates md5unit fsErr (str "/") (str "out") none (some kitSpaBool)
     [] 7 rfl rfl (by decide) rfl⟩

theorem spaAndFilterStage_supplier {α ε : Type} (md5 : α → Str) (fs : Str → Except ε α)
    (outDir : Str) (wm : Option Str) (spa : Option SpaOptions) (r adapterFallback : Str)
    (manifest : List ManifestEntry)
    (hspa : spaTruthy spa = true) (hrev : spaRevisionFn spa = some r) :
    spaAndFilterStage md5 fs outDir wm spa true adapterFallback manifest
      = Except.ok (applyWmFilter wm (manifest ++ [⟨spaName spa adapterFallback, r, 0⟩])) := by
  simp only [spaAndFilterStage, hspa, Bool.and_self, if_true, hrev]

theorem spaAndFilterStage_hash {α ε : Type} (md5 : α → Str) (fs : Str → Except ε α)
    (outDir : Str) (wm : Option Str) (spa : Option SpaOptions) (adapterFallback : Str)
    (manifest : List ManifestEntry) (content : α)
    (hspa : spaTruthy spa = true) (hrev : spaRevisionFn spa = none)
    (hfs : fs (resolvePath outDir (str "client/_app/version.json")) = Except.ok content) :
    spaAndFilterStage md5 fs outDir wm spa true adapterFallback manifest
      = Except.ok (applyWmFilter wm
          (manifest ++ [⟨spaName spa adapterFallback, md5 content, 0⟩])) := by
  simp only [spaAndFilterStage, hspa, Bool.and_self, if_true, hrev, buildManifestEntry, hfs]

/-- C10: for every configuration with SPA mode enabled (boolean `true` or any
object) and a truthy adapterFallback, the appended synthetic fallback entry's
url is the configured mapping — or, with no truthy mapping, the
adapterFallback — used verbatim, with none of the prefix stripping,
leading-slash removal or HTML rewriting applied to ordinary entries.  This
holds both when a custom revision supplier provides the revision and when the
revision is computed by the hashing helper (a successful read of the version
file).  In both cases the synthetic entry is nevertheless removed from the
final manifest when its url equals the configured web-app-manifest file name,
because that filter runs after the append. -/
theorem claim10_verbatim_then_filtered {α ε : Type} (md5 : α → Str) (fs : Str → Except ε α)
    (base outDir : Str) (webManifestName : Option Str) (options : Option KitOptions)
    (entries : List ManifestEntry) (f : Str)
    (hspa : spaTruthy (options.bind KitOptions.spa) = true)
    (hfb : options.bind KitOptions.adapterFallback = some f)
    (hf : f.isEmpty = false) :
    (∀ r, spaRevisionFn (options.bind KitOptions.spa) = some r →
       ((∀ n, webManifestName = some n → spaName (options.bind KitOptions.spa) f ≠ n) →
          createManifestTransform md5 fs base outDir webManifestName options entries
            = Except.ok (applyWmFilter webManifestName
                (mapManifest base (suffixOf options) f false entries)
                ++ [⟨spaName (options.bind KitOptions.spa) f, r, 0⟩]))
       ∧ (∀ n, webManifestName = some n → n.isEmpty = false →
            spaName (options.bind KitOptions.spa) f = n →
            createManifestTransform md5 fs base outDir webManifestName options entries
              = Except.ok (applyWmFilter webManifestName
                  (mapManifest base (suffixOf options) f false entries))))
    ∧ (spaRevisionFn (options.bind KitOptions.spa) = none →
       ∀ content, fs (resolvePath outDir (str "client/_app/version.json")) = Except.ok content →
       ((∀ n, webManifestName = some n → spaName (options.bind KitOptions.spa) f ≠ n) →
          createManifestTransform md5 fs base outDir webManifestName options entries
            = Except.ok (applyWmFilter webManifestName
                (mapManifest base (suffixOf options) f false entries)
                ++ [⟨spaName (options.bind KitOptions.spa) f, md5 content, 0⟩]))
       ∧ (∀ n, webManifestName = some n → n.isEmpty = false →
            spaName (options.bind KitOptions.spa) f = n →
            createManifestTransform md5 fs base outDir webManifestName options entries
              = Except.ok (applyWmFilter webManifestName
                  (mapManifest base (suffixOf options) f false entries))))
    ∧ (∀ m rv, options.bind KitOptions.spa = some (SpaOptions.asObject (some m) rv) →
         m.isEmpty = false → spaName (options.bind KitOptions.spa) f = m)
    ∧ (∀ rv, options.bind KitOptions.spa = some (SpaOptions.asObject none rv) →
         spaName (options.bind KitOptions.spa) f = f)
    ∧ (∀ b, options.bind KitOptions.spa = some (SpaOptions.asBool b) →
         spaName (options.bind KitOptions.spa) f = f) := by
  have h1 : optStrTruthy (options.bind KitOptions.adapterFallback) = true := by
    rw [hfb]; simp [optStrTruthy, hf]
  have h2 : resolvedAdapterFallback (options.bind KitOptions.adapterFallback) = f := by
    rw [hfb]; simp [resolvedAdapterFallback, hf]
  refine ⟨?_, ?_, ?_, ?_, ?_⟩
  · intro r hrev
    constructor
    · intro hkeep
      simp only [createManifestTransform, h1, h2, Bool.not_true]
      rw [spaAndFilterStage_supplier md5 fs outDir webManifestName
          (options.bind KitOptions.spa) r f
          (mapManifest base (suffixOf options) f false entries) hspa hrev,
        applyWmFilter_append,
        applyWmFilter_singleton_keep webManifestName
          ⟨spaName (options.bind KitOptions.spa) f, r, 0⟩ (fun n hn => hkeep n hn)]
    · intro n hn hne hcoll
      simp only [createManifestTransform, h1, h2, Bool.not_true]
      rw [spaAndFilterStage_supplier md5 fs outDir webManifestName
          (options.bind KitOptions.spa) r f
          (mapManifest base (suffixOf options) f false entries) hspa hrev,
        applyWmFilter_append, hn,
        applyWmFilter_singleton_drop n
          ⟨spaName (options.bind KitOptions.spa) f, r, 0⟩ hne hcoll, List.append_nil]
  · intro hrev content hfs
    constructor
    · intro hkeep
      simp only [createManifestTransform, h1, h2, Bool.not_true]
      rw [spaAndFilterStage_hash md5 fs outDir webManifestName
          (options.bind KitOptions.spa) f
          (mapManifest base (suffixOf options) f false entries) content hspa hrev hfs,
        applyWmFilter_append,
        applyWmFilter_singleton_keep webManifestName
          ⟨spaName (options.bind KitOptions.spa) f, md5 content, 0⟩ (fun n hn => hkeep n hn)]
    · intro n hn hne hcoll
      simp only [createManifestTransform, h1, h2, Bool.not_true]
      rw [spaAndFilterStage_hash md5 fs outDir webManifestName
          (options.bind KitOptions.spa) f
          (mapManifest base (suffixOf options) f false entries) content hspa hrev hfs,
        applyWmFilter_append, hn,
        applyWmFilter_singleton_drop n
          ⟨spaName (options.bind KitOptions.spa) f, md5 content, 0⟩ hne hcoll,
        List.append_nil]
  · intro m rv hs hm
    rw [hs]; simp [spaName, hm]
  · intro rv hs
    rw [hs]; simp [spaName]
  · intro b hs
    rw [hs]; simp [spaName]

/-- C10 witness: with SPA mode `true` (hashing branch, revision from the
version-file hash) the synthetic entry carries the adapterFallback
`404.html` verbatim and survives with no web-manifest name configured;
with an SPA object whose mapping collides with the configured web-manifest
file name (supplier branch) the verbatim synthetic entry is removed by the
filter that runs after the append. -/
theorem claim10_witness :
    (spaTruthy ((some kitSpaBool : Option KitOptions).bind KitOptions.spa) = true
     ∧ spaRevisionFn ((some kitSpaBool : Option KitOptions).bind KitOptions.spa) = none
     ∧ fsOk (resolvePath (str "out") (str "client/_app/version.json")) = Except.ok ()
     ∧ spaTruthy ((some kitSpaWm : Option KitOptions).bind KitOptions.spa) = true
     ∧ spaRevisionFn ((some kitSpaWm : Option KitOptions).bind KitOptions.spa)
         = some (str "ab")
     ∧ spaName ((some kitSpaWm : Option KitOptions).bind KitOptions.spa) (str "/404")
         = str "manifest.webmanifest")
    ∧ createManifestTransform md5unit fsOk (str "/") (str "out") none (some kitSpaBool) []
        = Except.ok (applyWmFilter none
            (mapManifest (str "/") (suffixOf (some kitSpaBool)) (str "404.html") false [])
            ++ [⟨spaName ((some kitSpaBool : Option KitOptions).bind KitOptions.spa)
                  (str "404.html"), md5unit (), 0⟩])
    ∧ createManifestTransform md5unit fsOk (str "/") (str "out")
        (some (str "manifest.webmanifest")) (some kitSpaWm) []
        = Except.ok (applyWmFilter (some (str "manifest.webmanifest"))
            (mapManifest (str "/") (suffixOf (some kitSpaWm)) (str "/404") false [])) :=
  ⟨⟨rfl, rfl, rfl, rfl, rfl, by decide⟩,
   ((claim10_verbatim_then_filtered md5unit fsOk (str "/") (str "out") none
       (some kitSpaBool) [] (str "404.html") rfl rfl (by decide)).2.1
      rfl () rfl).1 (fun n hn => Option.noConfusion hn),
   (((claim10_verbatim_then_filtered md5unit fsOk (str "/") (str "out")
       (some (str "manifest.webmanifest")) (some kitSpaWm) [] (str "/404")
       rfl rfl (by decide)).1 (str "ab") rfl).2
      (str "manifest.webmanifest") rfl (by decide) (by decide))⟩

theorem htmlTrim_append_html (q : Str) : htmlTrim (q ++ str ".html") = q := by
  have h1 : q ++ str ".html" = q ++ '.' :: str "html" := rfl
  have hm : lastIndexOf (q ++ str ".html") '.' = some q.length := by
    rw [h1]
    exact lastIndexOf_marker q (str "html") '.' (by decide)
  show (match lastIndexOf (q ++ str ".html") '.' with
        | some j => (q ++ str ".html").take j
        | none => []) = q
  rw [hm]
  show (q ++ str ".html").take q.length = q
  rw [h1]
  exact List.take_left q ('.' :: str "html")

theorem lastIndexOf_slash_index (t : Str) :
    lastIndexOf (t ++ str "/index.html") '/' = some t.length := by
  have h1 : t ++ str "/index.html" = t ++ '/' :: str "index.html" := rfl
  rw [h1]
  exact lastIndexOf_marker t (str "index.html") '/' (by decide)

theorem strip_preserves_html {url : Str} (h : jsEndsWith url (str ".html") = true) :
    jsEndsWith (stripLeadingSlash url) (str ".html") = true := by
  unfold stripLeadingSlash
  by_cases hs : jsStartsWith url (str "/") = true
  · rw [if_pos hs]
    obtain ⟨t, ht⟩ := (by simpa [jsStartsWith] using hs : str "/" <+: url)
    subst ht
    show jsEndsWith t (str ".html") = true
    have h' : str ".html" <:+ '/' :: t := jsEndsWith_iff.mp h
    rcases suffix_of_cons h' with heq | hsuf
    · have heq2 : '.' :: str "html" = '/' :: t := heq
      injection heq2 with h1 _
      exact absurd h1 (by decide)
    · rw [jsEndsWith_iff]
      exact hsuf
  · rw [if_neg hs]
    exact h

theorem trim_no_slash_end {v q : Str} (hq : q ++ str ".html" = v)
    (hdot : jsEndsWith v (str "/.html") = false) :
    jsEndsWith q (str "/") = false := by
  by_contra hc
  rw [Bool.not_eq_false] at hc
  obtain ⟨q2, hq2⟩ := jsEndsWith_iff.mp hc
  have hcontra : jsEndsWith v (str "/.html") = true := by
    rw [jsEndsWith_iff]
    refine ⟨q2, ?_⟩
    have hsplit : str "/.html" = str "/" ++ str ".html" := rfl
    rw [hsplit, ← List.append_assoc, hq2, hq]
  rw [hcontra] at hdot
  exact Bool.noConfusion hdot

theorem index_no_slash_end {v t : Str} (ht : t ++ str "/index.html" = v)
    (hdind : jsEndsWith v (str "//index.html") = false) :
    jsEndsWith t (str "/") = false := by
  by_contra hc
  rw [Bool.not_eq_false] at hc
  obtain ⟨t2, ht2⟩ := jsEndsWith_iff.mp hc
  have hcontra : jsEndsWith v (str "//index.html") = true := by
    rw [jsEndsWith_iff]
    refine ⟨t2, ?_⟩
    have hsplit : str "//index.html" = str "/" ++ str "/index.html" := rfl
    rw [hsplit, ← List.append_assoc, ht2, ht]
  rw [hcontra] at hdind
  exact Bool.noConfusion hdind

/-- C3 (amended): for every entry url ending in `.html` whose slash-stripped
form is not the root `index.html`, with the always-mode suffix `/` the
rewritten URL ends in `/`; with the default-mode empty suffix the rewritten
URL does not end in `/`, provided the resolved url is not of the degenerate
shapes with an empty file name or an empty directory segment (ending in
`/.html` or `//index.html`), which do produce a trailing slash. -/
theorem claim3_trailing_amended (base url : Str)
    (hhtml : jsEndsWith url (str ".html") = true)
    (hroot : stripLeadingSlash url ≠ str "index.html") :
    jsEndsWith (prettyUrl base (str "/") url) (str "/") = true
    ∧ (jsEndsWith (stripLeadingSlash url) (str "/.html") = false →
       jsEndsWith (stripLeadingSlash url) (str "//index.html") = false →
       jsEndsWith (prettyUrl base (str "") url) (str "/") = false) := by
  have hv : jsEndsWith (stripLeadingSlash url) (str ".html") = true := strip_preserves_html hhtml
  have hpretty : ∀ suffix : Str, prettyUrl base suffix url =
      (match lastIndexOf (stripLeadingSlash url) '/' with
       | some idx =>
         if jsEndsWith (stripLeadingSlash url) (str "/index.html") then
           (stripLeadingSlash url).take idx ++ suffix
         else htmlTrim (stripLeadingSlash url) ++ suffix
       | none => htmlTrim (stripLeadingSlash url) ++ suffix) := by
    intro suffix
    simp only [prettyUrl, hhtml, if_true]
    rw [if_neg hroot]
  constructor
  · rw [hpretty (str "/")]
    cases hidx : lastIndexOf (stripLeadingSlash url) '/' with
    | some idx =>
      dsimp only
      by_cases hind : jsEndsWith (stripLeadingSlash url) (str "/index.html") = true
      · rw [if_pos hind]
        exact jsEndsWith_append_self _ _
      · rw [if_neg hind]
        exact jsEndsWith_append_self _ _
    | none =>
      dsimp only
      exact jsEndsWith_append_self _ _
  · intro hdot hdind
    rw [hpretty (str "")]
    have hnil : str "" = ([] : Str) := rfl
    cases hidx : lastIndexOf (stripLeadingSlash url) '/' with
    | some idx =>
      dsimp only
      by_cases hind : jsEndsWith (stripLeadingSlash url) (str "/index.html") = true
      · rw [if_pos hind]
        obtain ⟨t, ht⟩ := jsEndsWith_iff.mp hind
        have hli : lastIndexOf (stripLeadingSlash url) '/' = some t.length := by
          rw [← ht]
          exact lastIndexOf_slash_index t
        have hidx2 : idx = t.length := by
          have hh := hli.symm.trans hidx
          injection hh with hh'
          exact hh'.symm
        subst hidx2
        have htake : (stripLeadingSlash url).take t.length = t := by
          rw [← ht]
          have h1 : t ++ str "/index.html" = t ++ '/' :: str "index.html" := rfl
          rw [h1]
          exact List.take_left t ('/' :: str "index.html")
        rw [htake, hnil, List.append_nil]
        exact index_no_slash_end ht hdind
      · rw [if_neg hind]
        obtain ⟨q, hq⟩ := jsEndsWith_iff.mp hv
        have htrim : htmlTrim (stripLeadingSlash url) = q := by
          rw [← hq]
          exact htmlTrim_append_html q
        rw [htrim, hnil, List.append_nil]
        exact trim_no_slash_end hq hdot
    | none =>
      dsimp only
      obtain ⟨q, hq⟩ := jsEndsWith_iff.mp hv
      have htrim : htmlTrim (stripLeadingSlash url) = q := by
        rw [← hq]
        exact htmlTrim_append_html q
      rw [htrim, hnil, List.append_nil]
      exact trim_no_slash_end hq hdot

/-- C3 counterexample: in the default trailing-slash mode (no options, so
the suffix is empty) the HTML-derived output for the artifact
`prerendered/pages/a/.html` is `a/`, which ends in `/`, contradicting the
claim that no HTML-derived output URL ends in `/` in default mode. -/
theorem claim3_counterexample :
    createManifestTransform md5unit fsOk (str "/") (str "out") none none
        [⟨str "prerendered/pages/a/.html", str "r", 1⟩]
      = Except.ok [⟨str "a/", str "r", 1⟩]
    ∧ suffixOf none = str ""
    ∧ jsEndsWith (str "a/") (str "/") = true :=
  ⟨by rfl, rfl, by decide⟩

/-- C3 witness: `about.html` gains a trailing slash in always mode and none
in default mode. -/
theorem claim3_witness :
    (jsEndsWith (str "about.html") (str ".html") = true
     ∧ stripLeadingSlash (str "about.html") ≠ str "index.html"
     ∧ jsEndsWith (stripLeadingSlash (str "about.html")) (str "/.html") = false
     ∧ jsEndsWith (stripLeadingSlash (str "about.html")) (str "//index.html") = false)
    ∧ jsEndsWith (prettyUrl (str "/") (str "/") (str "about.html")) (str "/") = true
    ∧ jsEndsWith (prettyUrl (str "/") (str "") (str "about.html")) (str "/") = false :=
  ⟨by decide,
   (claim3_trailing_amended (str "/") (str "about.html") (by decide) (by decide)).1,
   (claim3_trailing_amended (str "/") (str "about.html") (by decide) (by decide)).2
     (by decide) (by decide)⟩
